import Mathlib

/-!
Verification of the Path_Finder repository's interaction layer
(`src/pathfinder/gui.py`) against its natural-language specification.

The repository ships only `gui.py`; the `Graph`/`Cell` module it imports
(`pathfinder/graph.py`) is not part of the sources, so every `Graph`/`Cell`
operation below is modelled from the specification's component contracts
(spec §3, §4.1-§4.5) and marked `Modelled from the spec:` in its doc
comment.  Everything in the `GUI` namespace is translated directly from
`gui.py`.
-/

set_option maxRecDepth 4000
set_option linter.unusedVariables false

namespace PathFinder

/-- Cell state enum (spec §3: EMPTY, START, END, BARRIER, OPEN/DISCOVERED,
CLOSED/VISITED, PATH). -/
inductive State where
  | EMPTY
  | START
  | END
  | BARRIER
  | OPEN
  | CLOSED
  | PATH
deriving DecidableEq, Repr

/-- Modelled from the spec: a Cell (spec §3) holds its row and column index,
its discovery state, and path-cost bookkeeping (the accumulated cost `g`,
`none` while undiscovered, and the predecessor link recorded by the search).
The pixel position is derived from the indices and the cell width, so it is
not stored. -/
structure Cell where
  row : Nat
  col : Nat
  state : State
  pred : Option (Nat × Nat)
  g : Option Nat
deriving DecidableEq, Repr

/-- Modelled from the spec: Cell state setters (spec §4.1) unconditionally
overwrite the state; no validation happens inside Cell. -/
def Cell.set_state (s : State) (c : Cell) : Cell := { c with state := s }

/-- Modelled from the spec: `Cell.set_start` (spec §4.1). -/
def Cell.set_start (c : Cell) : Cell := Cell.set_state State.START c

/-- Modelled from the spec: `Cell.set_end` (spec §4.1). -/
def Cell.set_end (c : Cell) : Cell := Cell.set_state State.END c

/-- Modelled from the spec: `Cell.set_barrier` (spec §4.1). -/
def Cell.set_barrier (c : Cell) : Cell := Cell.set_state State.BARRIER c

/-- Modelled from the spec: `Cell.set_open` (spec §4.1). -/
def Cell.set_open (c : Cell) : Cell := Cell.set_state State.OPEN c

/-- Modelled from the spec: `Cell.set_closed` (spec §4.1). -/
def Cell.set_closed (c : Cell) : Cell := Cell.set_state State.CLOSED c

/-- Modelled from the spec: `Cell.set_path` (spec §4.1). -/
def Cell.set_path (c : Cell) : Cell := Cell.set_state State.PATH c

/-- Modelled from the spec: `Cell.reset` (spec §4.1) reverts the state to
EMPTY. -/
def Cell.reset (c : Cell) : Cell := Cell.set_state State.EMPTY c

/-- Replace the element at an index of a list in place (identity when the
index is out of range), mirroring an in-place mutation of one cell object
inside the Python list-of-lists grid. -/
def modifyIdx {α : Type} (f : α → α) : Nat → List α → List α
  | _, [] => []
  | 0, x :: xs => f x :: xs
  | n + 1, x :: xs => x :: modifyIdx f n xs

theorem get?_modifyIdx {α : Type} (f : α → α) :
    ∀ (n : Nat) (l : List α) (m : Nat),
      (modifyIdx f n l).get? m = if n = m then (l.get? m).map f else l.get? m := by
  intro n l
  induction l generalizing n with
  | nil => intro m; simp [modifyIdx]
  | cons x xs ih =>
    intro m
    cases n with
    | zero =>
      cases m with
      | zero => simp [modifyIdx]
      | succ m => simp [modifyIdx]
    | succ n =>
      cases m with
      | zero => simp [modifyIdx]
      | succ m => simpa [modifyIdx] using ih n m

/-- Lookup of `grid[row][col]` in the Python list-of-lists grid; `none`
models the indices being out of range (an `IndexError` in Python). -/
def gridGet (grid : List (List Cell)) (r c : Nat) : Option Cell :=
  (grid.get? r).bind (fun rowL => rowL.get? c)

/-- In-place mutation of the cell object at `grid[r][c]` (identity when the
indices are out of range, which never happens on the paths the handler
actually takes: it indexes the grid first). -/
def updateCell (grid : List (List Cell)) (r c : Nat) (f : Cell → Cell) :
    List (List Cell) :=
  modifyIdx (modifyIdx f c) r grid

theorem gridGet_updateCell (grid : List (List Cell)) (r c : Nat) (f : Cell → Cell)
    (a b : Nat) :
    gridGet (updateCell grid r c f) a b =
      if r = a ∧ c = b then (gridGet grid a b).map f else gridGet grid a b := by
  unfold gridGet updateCell
  rw [get?_modifyIdx]
  by_cases hra : r = a
  · subst hra
    simp only [eq_self_iff_true, if_true, true_and]
    cases h : grid.get? r with
    | none =>
      simp only [Option.map_none', Option.none_bind]
      split <;> rfl
    | some rowL =>
      simp only [Option.map_some', Option.some_bind]
      exact get?_modifyIdx f c rowL b
  · simp [hra]

/-- The state of the cell at a position (ignores the cost bookkeeping). -/
def stateAt (grid : List (List Cell)) (p : Nat × Nat) : Option State :=
  (gridGet grid p.1 p.2).map Cell.state

theorem stateAt_updateCell_keep (grid : List (List Cell)) (r c : Nat)
    (f : Cell → Cell) (hf : ∀ x, (f x).state = x.state) (p : Nat × Nat) :
    stateAt (updateCell grid r c f) p = stateAt grid p := by
  unfold stateAt
  rw [gridGet_updateCell]
  by_cases h : r = p.1 ∧ c = p.2
  · simp only [h, if_true]
    cases gridGet grid p.1 p.2 with
    | none => simp
    | some x => simp [hf]
  · simp [h]

theorem stateAt_updateCell (grid : List (List Cell)) (r c : Nat) (s : State)
    (f : Cell → Cell) (hf : ∀ x, (f x).state = s) (p : Nat × Nat) :
    stateAt (updateCell grid r c f) p = stateAt grid p ∨
      (stateAt (updateCell grid r c f) p = some s ∧ p = (r, c)) := by
  unfold stateAt
  rw [gridGet_updateCell]
  by_cases h : r = p.1 ∧ c = p.2
  · cases hg : gridGet grid p.1 p.2 with
    | none => left; simp [h, hg]
    | some x =>
      right
      refine ⟨by simp [h, hg, hf], ?_⟩
      obtain ⟨h1, h2⟩ := h
      cases p
      simp_all
  · left; simp [h]

/-- Modelled from the spec: a fresh square grid of `n × n` EMPTY cells
(spec §3: Grid is "a 2D ordered collection of Cells (rows × columns, fixed
at construction)"; the GUI passes a single dimension, and its docstring
states the number of rows equals the number of columns). -/
def mkGrid (n : Nat) : List (List Cell) :=
  (List.range n).map (fun r => (List.range n).map (fun c => Cell.mk r c State.EMPTY none none))

/-- Modelled from the spec: the Graph (spec §3) owns the 2D cell collection,
the nullable start and end references (identified by the referenced cell's
(row, col), since cells are never duplicated and equality is reference
identity per spec §4.1), and the `paths` flag.  `end` is a Lean keyword, so
the end reference field is called `end_`. -/
structure Graph where
  rows : Nat
  grid : List (List Cell)
  start : Option (Nat × Nat)
  end_ : Option (Nat × Nat)
  paths : Bool
deriving DecidableEq, Repr

/-- Modelled from the spec: `Graph(rows, width)` creates the fixed-size grid
at startup (spec §3 lifecycle); the width argument only sizes the rendered
cells, whose pixel position is derived, so it is not stored. -/
def Graph.init (rows width : Nat) : Graph :=
  { rows := rows, grid := mkGrid rows, start := none, end_ := none, paths := false }

/-- Modelled from the spec: `Graph.set_start(cell)` assigns the designated
reference and sets the cell's state (spec §4.2); legality is the caller's
responsibility. -/
def Graph.set_start (g : Graph) (row col : Nat) : Graph :=
  { g with start := some (row, col), grid := updateCell g.grid row col Cell.set_start }

/-- Modelled from the spec: `Graph.set_end(cell)` assigns the designated
reference and sets the cell's state (spec §4.2). -/
def Graph.set_end (g : Graph) (row col : Nat) : Graph :=
  { g with end_ := some (row, col), grid := updateCell g.grid row col Cell.set_end }

/-- Modelled from the spec: `Graph.reset()` clears every cell to EMPTY and
clears the start/end references and the paths flag (spec §4.2). -/
def Graph.reset (g : Graph) : Graph :=
  { g with grid := g.grid.map (List.map Cell.reset), start := none, end_ := none,
           paths := false }

/-- Modelled from the spec: `Graph.reset_discovered()` reverts every cell
whose state is OPEN, CLOSED, or PATH back to EMPTY, leaves START/END/BARRIER
untouched, and does not clear the references or the paths flag (spec §4.2
main text; the spec notes the paths-flag policy as an open question and we
follow its main text). -/
def Graph.reset_discovered (g : Graph) : Graph :=
  { g with grid := g.grid.map (List.map (fun c =>
      if c.state = State.OPEN ∨ c.state = State.CLOSED ∨ c.state = State.PATH
      then Cell.reset c else c)) }

/-- Modelled from the spec: the walk of `mark_path` (spec §4.2) along the
recorded predecessor links, marking each visited cell with the given state
until the start reference (or a missing link) is reached; fuel bounds the
walk since adversarial predecessor links could loop. -/
def markChain (grid : List (List Cell)) (startRef : Option (Nat × Nat)) (s : State) :
    Nat → Option (Nat × Nat) → List (List Cell)
  | _, none => grid
  | 0, some _ => grid
  | Nat.succ fuel, some p =>
    if startRef = some p then grid
    else
      markChain (updateCell grid p.1 p.2 (Cell.set_state s)) startRef s fuel
        ((gridGet grid p.1 p.2).bind Cell.pred)

/-- Modelled from the spec: `Graph.mark_path(should_mark)` walks the
predecessor chain from END back to START and either marks every intermediate
cell as PATH (`should_mark = true`) or reverts them to CLOSED
(`should_mark = false`) (spec §4.2). -/
def Graph.mark_path (g : Graph) (should_mark : Bool) : Graph :=
  match g.end_ with
  | none => g
  | some e =>
    let s := if should_mark then State.PATH else State.CLOSED
    let first := (gridGet g.grid e.1 e.2).bind Cell.pred
    { g with grid := markChain g.grid g.start s (g.rows * g.rows) first }

/-- Modelled from the spec: `Cell.neighbors(grid)` returns the up-to-4
orthogonally adjacent in-bounds cells that are not BARRIER, computed fresh
each call (spec §4.1). -/
def neighborsOf (grid : List (List Cell)) (p : Nat × Nat) : List (Nat × Nat) :=
  ((if 1 ≤ p.1 then [(p.1 - 1, p.2)] else []) ++ [(p.1 + 1, p.2)] ++
   (if 1 ≤ p.2 then [(p.1, p.2 - 1)] else []) ++ [(p.1, p.2 + 1)]).filter
    (fun q => match gridGet grid q.1 q.2 with
      | some c => decide (c.state ≠ State.BARRIER)
      | none => false)

/-- Modelled from the spec: the Manhattan distance heuristic `h` to the end
cell (spec §4.3). -/
def manhattan (p q : Nat × Nat) : Nat :=
  (max p.1 q.1 - min p.1 q.1) + (max p.2 q.2 - min p.2 q.2)

/-- Modelled from the spec: an open-set entry ordered by `f`, tie-broken by
a monotonically increasing insertion counter (spec §4.3). -/
structure Entry where
  f : Nat
  count : Nat
  pos : Nat × Nat
deriving DecidableEq, Repr

/-- Priority order of the open set: by `f`, ties by insertion counter. -/
def entryLE (a b : Entry) : Bool :=
  a.f < b.f || (a.f == b.f && a.count ≤ b.count)

/-- Modelled from the spec: popping the lowest-priority entry from the open
set (spec §4.3). -/
def popMin : List Entry → Option (Entry × List Entry)
  | [] => none
  | e :: es =>
    match popMin es with
    | none => some (e, [])
    | some (m, rest) => if entryLE e m then some (e, es) else some (m, e :: rest)

/-- Search state threaded through the A*/Dijkstra loop: the grid, the open
set, and the insertion counter (spec §4.3). -/
structure SearchSt where
  grid : List (List Cell)
  open_set : List Entry
  count : Nat

/-- Modelled from the spec: processing one neighbor of the current cell
(spec §4.3): skip finalized (CLOSED) neighbors; compute tentative `g+1`; if
improved, record predecessor and `g`, and if not already in the open set,
insert it with priority `g+h` (A*) or `g` (Dijkstra) and mark it OPEN.  The
OPEN state write skips the designated end cell: the spec keeps a designated
END cell on the grid at all times (§3 invariant) and the tertiary-click
contract deletes it by its END state after a successful search (§6), so
discovery must not repaint it. -/
def relaxNeighbor (useH : Bool) (endPos : Option (Nat × Nat)) (cur : Nat × Nat)
    (st : SearchSt) (nb : Nat × Nat) : SearchSt :=
  match gridGet st.grid nb.1 nb.2 with
  | none => st
  | some ncell =>
    if ncell.state = State.CLOSED then st
    else
      let tentative := ((gridGet st.grid cur.1 cur.2).bind Cell.g).getD 0 + 1
      let improved := match ncell.g with
        | none => true
        | some gn => tentative < gn
      if improved then
        let grid1 := updateCell st.grid nb.1 nb.2
          (fun c => { c with pred := some cur, g := some tentative })
        if st.open_set.any (fun e => e.pos == nb) then { st with grid := grid1 }
        else
          let h := if useH then (match endPos with
            | some e => manhattan nb e
            | none => 0) else 0
          let grid2 := if endPos = some nb then grid1
            else updateCell grid1 nb.1 nb.2 Cell.set_open
          { grid := grid2,
            open_set := st.open_set ++ [⟨tentative + h, st.count, nb⟩],
            count := st.count + 1 }
      else st

/-- Modelled from the spec: after processing the neighbors, the current cell
is marked CLOSED unless it is the start cell (spec §4.3). -/
def closeCur (startPos cur : Nat × Nat) (st : SearchSt) : SearchSt :=
  if cur = startPos then st
  else { st with grid := updateCell st.grid cur.1 cur.2 Cell.set_closed }

/-- Modelled from the spec: the shared A*/Dijkstra loop (spec §4.3, §4.4):
pop the lowest-priority entry; success when it is the end cell; otherwise
relax each valid, not-yet-finalized neighbor and mark the popped cell CLOSED
unless it is the start cell.  Failure when the open set empties.  Fuel
bounds the iteration count (the Python loop instead yields to the renderer
each step). -/
def searchLoop (useH : Bool) (startPos : Nat × Nat) (endPos : Option (Nat × Nat)) :
    Nat → SearchSt → SearchSt × Bool
  | 0, st => (st, false)
  | Nat.succ fuel, st =>
    match popMin st.open_set with
    | none => (st, false)
    | some (e, rest) =>
      if endPos = some e.pos then ({ st with open_set := rest }, true)
      else
        searchLoop useH startPos endPos fuel
          (closeCur startPos e.pos ((neighborsOf st.grid e.pos).foldl
            (relaxNeighbor useH endPos e.pos) { st with open_set := rest }))

/-- Modelled from the spec: `Graph.a_star` (spec §4.3) — requires start and
end; seeds the start cell with `g = 0` and the open set with the start entry
at priority `h(start)`; on success the `paths` flag becomes true (a path has
been computed). -/
def Graph.a_star (g : Graph) : Graph :=
  match g.start, g.end_ with
  | some s, some e =>
    let grid0 := updateCell g.grid s.1 s.2 (fun c => { c with g := some 0, pred := none })
    let res := searchLoop true s (some e) (g.rows * g.rows * 4 + 1)
      ⟨grid0, [⟨manhattan s e, 0, s⟩], 1⟩
    { g with grid := res.1.grid, paths := g.paths || res.2 }
  | _, _ => g

/-- Modelled from the spec: `Graph.dijkstra` (spec §4.4) — same skeleton as
A* with priority purely the accumulated `g`; does not require an end cell
(the loop then runs until the open set empties). -/
def Graph.dijkstra (g : Graph) : Graph :=
  match g.start with
  | some s =>
    let grid0 := updateCell g.grid s.1 s.2 (fun c => { c with g := some 0, pred := none })
    let res := searchLoop false s g.end_ (g.rows * g.rows * 4 + 1)
      ⟨grid0, [⟨0, 0, s⟩], 1⟩
    { g with grid := res.1.grid, paths := g.paths || res.2 }
  | none => g

/-- Modelled from the spec: fill a subset of non-start/non-end cells with
BARRIER (spec §4.5); the randomness is an explicit boolean choice function
keyed by the cell's position. -/
def mazeFill (grid : List (List Cell)) (startRef endRef : Option (Nat × Nat))
    (pick : Nat → Bool) : List (List Cell) :=
  grid.map (List.map (fun c =>
    if startRef ≠ some (c.row, c.col) ∧ endRef ≠ some (c.row, c.col) ∧
        pick (c.row * 4096 + c.col) = true
    then Cell.set_barrier c else c))

/-- Modelled from the spec: fuel-bounded flood search used as the
reachability check of maze generation (spec §4.5). -/
def reach (grid : List (List Cell)) : Nat → List (Nat × Nat) → List (Nat × Nat) →
    Nat × Nat → Bool
  | 0, _, _, _ => false
  | Nat.succ _, [], _, _ => false
  | Nat.succ fuel, p :: rest, visited, tgt =>
    if p = tgt then true
    else if visited.contains p then reach grid fuel rest visited tgt
    else reach grid fuel (rest ++ neighborsOf grid p) (p :: visited) tgt

/-- Modelled from the spec: the connectivity check before committing a maze
candidate (spec §4.5): when START and END both exist a path between them
must exist; otherwise the guarantee is vacuous. -/
def connectedOK (g : Graph) (candidate : List (List Cell)) : Bool :=
  match g.start, g.end_ with
  | some s, some e => reach candidate (g.rows * g.rows * 8 + 1) [s] [] e
  | _, _ => true

/-- Modelled from the spec: the validation-and-retry attempts of maze
generation (spec §4.5): each attempt draws a random barrier placement over
the non-start/non-end cells and commits it only if the connectivity check
passes; if no attempt passes, nothing is committed. -/
def mazeGo (rand : Nat → Nat → Bool) (g : Graph) : Nat → Graph
  | 0 => g
  | Nat.succ n =>
    let candidate := mazeFill g.grid g.start g.end_ (rand n)
    if connectedOK g candidate then { g with grid := candidate } else mazeGo rand g n

/-- Modelled from the spec: `Graph.generate_maze` (spec §4.5) — randomized
barrier placement over non-start/non-end cells with a connectivity check
before committing.  The randomness is an explicit argument (attempt index →
cell key → choice). -/
def Graph.generate_maze (rand : Nat → Nat → Bool) (g : Graph) : Graph :=
  mazeGo rand g 8

/-- Python's `round` on the exact rational `a / b` for nonnegative operands:
round half to even (the float arithmetic of the source is exact for the
halves `rows / 2` and agrees with this on all ratios not within one double
ulp of a half-integer). -/
def pyRound (a b : Nat) : Nat :=
  let q := a / b
  let r := a % b
  if 2 * r < b then q
  else if b < 2 * r then q + 1
  else if q % 2 = 0 then q else q + 1

/-- The GUI state built by `GUI.__init__` (gui.py lines 28-45): only the
logic-bearing attributes (the window handle is I/O). -/
structure GUIState where
  rows : Nat
  columns : Nat
  width : Nat
  vertex_width : Nat
  graph : Graph
deriving Repr

/-- `GUI.__init__(rows, width)` (gui.py lines 28-45): `self.rows =
round(rows/2)`, `self.columns = rows`, `self.vertex_width = 2*round(width /
rows)`, `self.graph = Graph(self.rows, self.vertex_width)`. -/
def GUI.init (rows width : Nat) : GUIState :=
  let halfRows := pyRound rows 2
  let vw := 2 * pyRound width rows
  { rows := halfRows, columns := rows, width := width, vertex_width := vw,
    graph := Graph.init halfRows vw }

/-- `GUI.get_click_pos` (gui.py lines 176-193): `row = y // vertex_width`,
`col = x // vertex_width`. -/
def get_click_pos (vertex_width : Nat) (pos : Nat × Nat) : Nat × Nat :=
  (pos.2 / vertex_width, pos.1 / vertex_width)

/-- Keyboard keys the handler distinguishes (gui.py lines 144-165). -/
inductive Key where
  | k_escape
  | k_c
  | k_a
  | k_d
  | k_m
  | k_other
deriving DecidableEq, Repr

/-- One pygame event as the handler distinguishes them: QUIT, KEYDOWN with a
key, or anything else. -/
inductive Event where
  | quit
  | keydown (k : Key)
  | other
deriving DecidableEq, Repr

/-- The global mouse state polled by the handler
(`pygame.mouse.get_pressed()` and `pygame.mouse.get_pos()`). -/
structure Mouse where
  pressed0 : Bool
  pressed1 : Bool
  pressed2 : Bool
  pos : Nat × Nat
deriving DecidableEq, Repr

/-- Result of handling one event: the loop stops on QUIT (`handle_events`
returns False), continues with the mutated graph, or an uncaught
`IndexError` escapes (grid indexed out of bounds). -/
inductive HandleResult where
  | quit
  | ok (g : Graph)
  | err
deriving DecidableEq, Repr

/-- The graph carried by an `ok` result. -/
def resultGraph : HandleResult → Option Graph
  | HandleResult.ok g => some g
  | _ => none

/-- Left-click branch (gui.py lines 96-108): set the start node when none is
designated and the node is not the end; otherwise place a barrier when the
node is neither end nor start and no path exists. -/
def primaryClick (g : Graph) (row col : Nat) : Graph :=
  if g.start = none ∧ g.end_ ≠ some (row, col) then Graph.set_start g row col
  else if g.end_ ≠ some (row, col) ∧ g.start ≠ some (row, col) ∧ g.paths = false then
    { g with grid := updateCell g.grid row col Cell.set_barrier }
  else g

/-- Middle-click branch (gui.py lines 110-121): set the end node when none
is designated, the node is not the start, and its state is not BARRIER;
redraw bookkeeping via `mark_path(False)` when a path exists. -/
def secondaryClick (g : Graph) (row col : Nat) (node : Cell) : Graph :=
  if g.end_ = none ∧ g.start ≠ some (row, col) ∧ node.state ≠ State.BARRIER then
    let g1 := Graph.set_end g row col
    if g1.paths then Graph.mark_path g1 false else g1
  else g

/-- Right-click branch (gui.py lines 123-142): a node can be deleted when it
is the END node, or (with no path computed) a BARRIER or START node; the
corresponding reference is cleared, and deleting the END node while a path
exists re-marks the stored path and closes the cell. -/
def tertiaryClick (g : Graph) (row col : Nat) (node : Cell) : Graph :=
  if node.state = State.END ∨ (g.paths = false ∧ node.state = State.BARRIER) ∨
      (g.paths = false ∧ node.state = State.START) then
    let g1 : Graph := { g with grid := updateCell g.grid row col Cell.reset }
    if g1.start = some (row, col) then { g1 with start := none }
    else if g1.end_ = some (row, col) then
      if g1.paths then
        let g2 := Graph.mark_path g1 true
        { g2 with grid := updateCell g2.grid row col Cell.set_closed, end_ := none }
      else { g1 with end_ := none }
    else g1
  else g

/-- The A* command as the handler runs it (gui.py lines 153-156): run
`a_star`, then `mark_path(False)` when an end is designated. -/
def aStarCmd (g : Graph) : Graph :=
  let g1 := Graph.a_star g
  if g1.end_.isSome then Graph.mark_path g1 false else g1

/-- The Dijkstra command as the handler runs it (gui.py lines 157-161). -/
def dijkstraCmd (g : Graph) : Graph :=
  let g1 := Graph.dijkstra g
  if g1.end_.isSome then Graph.mark_path g1 false else g1

/-- KEYDOWN dispatch (gui.py lines 144-165): ESC full reset; C partial
reset; A runs A* only when start and end are designated; D runs Dijkstra
only when a start is designated; M resets then generates a maze. -/
def handleKeydown (rand : Nat → Nat → Bool) (g : Graph) (k : Key) : Graph :=
  if k = Key.k_escape then Graph.reset g
  else if k = Key.k_c then Graph.reset_discovered g
  else if g.start.isSome ∧ g.end_.isSome ∧ k = Key.k_a then aStarCmd g
  else if g.start.isSome ∧ k = Key.k_d then dijkstraCmd g
  else if k = Key.k_m then Graph.generate_maze rand (Graph.reset g)
  else g

/-- One iteration of the event loop body of `GUI.handle_events` (gui.py
lines 91-166): QUIT stops the loop; otherwise the pressed mouse buttons are
checked in order (each button branch maps the pointer position with
`get_click_pos` and indexes `graph.grid[row][col]` with no bounds check — a
failed lookup is an uncaught IndexError); otherwise KEYDOWN dispatches on
the key. -/
def handleEvent (g : Graph) (vertex_width : Nat) (rand : Nat → Nat → Bool)
    (ev : Event) (m : Mouse) : HandleResult :=
  if ev = Event.quit then HandleResult.quit
  else if m.pressed0 then
    let rc := get_click_pos vertex_width m.pos
    match gridGet g.grid rc.1 rc.2 with
    | none => HandleResult.err
    | some _ => HandleResult.ok (primaryClick g rc.1 rc.2)
  else if m.pressed1 then
    let rc := get_click_pos vertex_width m.pos
    match gridGet g.grid rc.1 rc.2 with
    | none => HandleResult.err
    | some node => HandleResult.ok (secondaryClick g rc.1 rc.2 node)
  else if m.pressed2 then
    let rc := get_click_pos vertex_width m.pos
    match gridGet g.grid rc.1 rc.2 with
    | none => HandleResult.err
    | some node => HandleResult.ok (tertiaryClick g rc.1 rc.2 node)
  else
    match ev with
    | Event.keydown k => HandleResult.ok (handleKeydown rand g k)
    | _ => HandleResult.ok g

/-- `GUI.handle_events` over the polled event queue (gui.py lines 86-166):
events are processed in order; QUIT returns False immediately; an uncaught
IndexError aborts the handler. -/
def handle_events (g : Graph) (vertex_width : Nat) (rand : Nat → Nat → Bool) :
    List (Event × Mouse) → HandleResult
  | [] => HandleResult.ok g
  | (ev, m) :: rest =>
    match handleEvent g vertex_width rand ev m with
    | HandleResult.ok g1 => handle_events g1 vertex_width rand rest
    | r => r

/-- Python-level errors the embedding distinguishes. -/
inductive PyErr where
  | typeError
  | indexError
deriving DecidableEq, Repr

/-- `GUI.draw(self, fps)` (gui.py lines 66-84) reduced to its observable
output: each cell drawn as a filled `vertex_width`-square at its derived
pixel position `(col * vertex_width, row * vertex_width)`, and the frame
clock ticked at `fps`. -/
def draw (g : Graph) (vertex_width fps : Nat) : List (Nat × Nat × Nat × Nat) × Nat :=
  ((g.grid.map (fun rowL => rowL.map
      (fun c => (c.col * vertex_width, c.row * vertex_width, vertex_width,
        vertex_width)))).flatten, fps)

/-- The Python call protocol for `draw`: `def draw(self, fps)` declares one
required positional parameter, so a call must pass exactly one argument or a
TypeError is raised. -/
def drawCall (g : Graph) (vertex_width : Nat) (args : List Nat) :
    Except PyErr (List (Nat × Nat × Nat × Nat) × Nat) :=
  match args with
  | [fps] => Except.ok (draw g vertex_width fps)
  | _ => Except.error PyErr.typeError

/-- One iteration of `GUI.loop` (gui.py lines 168-174): `while
self.handle_events(): self.draw()` — handle the polled events first, then
call `self.draw()` with no argument.  Returns the new graph and the frame
output, `none` when the loop exits on QUIT, or the Python error that escaped
the iteration. -/
def loopIter (g : Graph) (vertex_width : Nat) (rand : Nat → Nat → Bool)
    (events : List (Event × Mouse)) :
    Except PyErr (Option (Graph × (List (Nat × Nat × Nat × Nat) × Nat))) :=
  match handle_events g vertex_width rand events with
  | HandleResult.quit => Except.ok none
  | HandleResult.err => Except.error PyErr.indexError
  | HandleResult.ok g1 =>
    match drawCall g1 vertex_width [] with
    | Except.ok out => Except.ok (some (g1, out))
    | Except.error e => Except.error e

theorem gridGet_map (grid : List (List Cell)) (f : Cell → Cell) (a b : Nat) :
    gridGet (grid.map (List.map f)) a b = (gridGet grid a b).map f := by
  unfold gridGet
  rw [List.get?_map]
  cases grid.get? a with
  | none => rfl
  | some rowL => simp [List.get?_map]

/-- Between two grids, every cell's state is unchanged or was overwritten
with one of the states in `S`. -/
def StatesOnly (S : List State) (grid grid' : List (List Cell)) : Prop :=
  ∀ p : Nat × Nat, stateAt grid' p = stateAt grid p ∨ ∃ s ∈ S, stateAt grid' p = some s

theorem statesOnly_refl (S : List State) (grid : List (List Cell)) :
    StatesOnly S grid grid := fun _ => Or.inl rfl

theorem statesOnly_trans {S : List State} {g1 g2 g3 : List (List Cell)}
    (h12 : StatesOnly S g1 g2) (h23 : StatesOnly S g2 g3) : StatesOnly S g1 g3 := by
  intro p
  rcases h23 p with h | ⟨s, hs, hval⟩
  · rw [h]; exact h12 p
  · exact Or.inr ⟨s, hs, hval⟩

theorem statesOnly_mono (S S' : List State) {g1 g2 : List (List Cell)}
    (hsub : ∀ s ∈ S, s ∈ S') (h : StatesOnly S g1 g2) : StatesOnly S' g1 g2 := by
  intro p
  rcases h p with h | ⟨s, hs, hval⟩
  · exact Or.inl h
  · exact Or.inr ⟨s, hsub s hs, hval⟩

theorem statesOnly_updateCell_keep {S : List State} (grid : List (List Cell))
    (r c : Nat) (f : Cell → Cell) (hf : ∀ x, (f x).state = x.state) :
    StatesOnly S grid (updateCell grid r c f) :=
  fun p => Or.inl (stateAt_updateCell_keep grid r c f hf p)

theorem statesOnly_updateCell {S : List State} (grid : List (List Cell))
    (r c : Nat) (s : State) (f : Cell → Cell) (hs : s ∈ S)
    (hf : ∀ x, (f x).state = s) : StatesOnly S grid (updateCell grid r c f) := by
  intro p
  rcases stateAt_updateCell grid r c s f hf p with h | ⟨h, _⟩
  · exact Or.inl h
  · exact Or.inr ⟨s, hs, h⟩

theorem statesOnly_map {S : List State} (grid : List (List Cell)) (f : Cell → Cell)
    (hf : ∀ x, (f x).state = x.state ∨ ∃ s ∈ S, (f x).state = s) :
    StatesOnly S grid (grid.map (List.map f)) := by
  intro p
  unfold stateAt
  rw [gridGet_map]
  cases gridGet grid p.1 p.2 with
  | none => exact Or.inl rfl
  | some x =>
    rcases hf x with h | ⟨s, hs, hval⟩
    · exact Or.inl (by simp [h])
    · exact Or.inr ⟨s, hs, by simp [hval]⟩

theorem statesOnly_markChain (startRef : Option (Nat × Nat)) (s : State) :
    ∀ (fuel : Nat) (grid : List (List Cell)) (po : Option (Nat × Nat)),
      StatesOnly [s] grid (markChain grid startRef s fuel po) := by
  intro fuel
  induction fuel with
  | zero =>
    intro grid po
    cases po <;> exact statesOnly_refl _ _
  | succ fuel ih =>
    intro grid po
    cases po with
    | none => exact statesOnly_refl _ _
    | some p =>
      show StatesOnly _ _ (markChain grid startRef s (fuel + 1) (some p))
      rw [markChain]
      by_cases hsr : startRef = some p
      · simp only [hsr, if_true]
        exact statesOnly_refl _ _
      · simp only [hsr, if_false]
        exact statesOnly_trans
          (statesOnly_updateCell grid p.1 p.2 s (Cell.set_state s)
            (List.mem_singleton.2 rfl) (fun x => rfl))
          (ih _ _)

/-- States the search loop is allowed to paint. -/
def searchStates : List State := [State.OPEN, State.CLOSED]

theorem statesOnly_relaxNeighbor (useH : Bool) (endPos : Option (Nat × Nat))
    (cur : Nat × Nat) (st : SearchSt) (nb : Nat × Nat) :
    StatesOnly searchStates st.grid (relaxNeighbor useH endPos cur st nb).grid := by
  simp only [relaxNeighbor]
  split
  · exact statesOnly_refl _ _
  · split
    · exact statesOnly_refl _ _
    · split
      · split
        · exact statesOnly_updateCell_keep _ _ _ _ (fun x => rfl)
        · have hkeep : StatesOnly searchStates st.grid
              (updateCell st.grid nb.1 nb.2 (fun c =>
                { c with pred := some cur, g := some (((gridGet st.grid cur.1 cur.2).bind Cell.g).getD 0 + 1) })) :=
            statesOnly_updateCell_keep _ _ _ _ (fun x => rfl)
          refine statesOnly_trans hkeep ?_
          split
          · exact statesOnly_refl _ _
          · exact statesOnly_updateCell _ _ _ State.OPEN Cell.set_open
              (by simp [searchStates]) (fun x => rfl)
      · exact statesOnly_refl _ _

theorem statesOnly_foldl {β : Type} (l : List β) (step : SearchSt → β → SearchSt)
    (h : ∀ st b, StatesOnly searchStates st.grid (step st b).grid) :
    ∀ st : SearchSt, StatesOnly searchStates st.grid (l.foldl step st).grid := by
  induction l with
  | nil => intro st; exact statesOnly_refl _ _
  | cons b bs ih =>
    intro st
    exact statesOnly_trans (h st b) (ih (step st b))

theorem statesOnly_searchLoop (useH : Bool) (startPos : Nat × Nat)
    (endPos : Option (Nat × Nat)) :
    ∀ (fuel : Nat) (st : SearchSt),
      StatesOnly searchStates st.grid (searchLoop useH startPos endPos fuel st).1.grid := by
  intro fuel
  induction fuel with
  | zero => intro st; exact statesOnly_refl _ _
  | succ fuel ih =>
    intro st
    rw [searchLoop]
    split
    · exact statesOnly_refl _ _
    · rename_i e rest hpop
      have h1 : StatesOnly searchStates st.grid
          ((neighborsOf st.grid e.pos).foldl (relaxNeighbor useH endPos e.pos)
            { st with open_set := rest }).grid :=
        statesOnly_foldl (neighborsOf st.grid e.pos) (relaxNeighbor useH endPos e.pos)
          (fun st b => statesOnly_relaxNeighbor useH endPos e.pos st b)
          { st with open_set := rest }
      have h2 : ∀ st1 : SearchSt, StatesOnly searchStates st1.grid
          (closeCur startPos e.pos st1).grid := by
        intro st1
        unfold closeCur
        split
        · exact statesOnly_refl _ _
        · exact statesOnly_updateCell _ _ _ State.CLOSED Cell.set_closed
            (by simp [searchStates]) (fun x => rfl)
      by_cases hend : endPos = some e.pos
      · rw [if_pos hend]
        exact statesOnly_refl _ _
      · rw [if_neg hend]
        exact statesOnly_trans h1 (statesOnly_trans (h2 _) (ih _))

theorem a_star_fields (g : Graph) :
    (Graph.a_star g).start = g.start ∧ (Graph.a_star g).end_ = g.end_ ∧
      (Graph.a_star g).rows = g.rows := by
  unfold Graph.a_star
  split
  · exact ⟨rfl, rfl, rfl⟩
  · exact ⟨rfl, rfl, rfl⟩

theorem statesOnly_a_star (g : Graph) :
    StatesOnly searchStates g.grid (Graph.a_star g).grid := by
  unfold Graph.a_star
  split
  · rename_i s e hs he
    refine statesOnly_trans (statesOnly_updateCell_keep g.grid s.1 s.2
      (fun c => { c with g := some 0, pred := none }) (fun x => rfl)) ?_
    exact statesOnly_searchLoop true s (some e) (g.rows * g.rows * 4 + 1)
      ⟨updateCell g.grid s.1 s.2 (fun c => { c with g := some 0, pred := none }),
        [⟨manhattan s e, 0, s⟩], 1⟩
  · exact statesOnly_refl _ _

theorem dijkstra_fields (g : Graph) :
    (Graph.dijkstra g).start = g.start ∧ (Graph.dijkstra g).end_ = g.end_ ∧
      (Graph.dijkstra g).rows = g.rows := by
  unfold Graph.dijkstra
  split
  · exact ⟨rfl, rfl, rfl⟩
  · exact ⟨rfl, rfl, rfl⟩

theorem statesOnly_dijkstra (g : Graph) :
    StatesOnly searchStates g.grid (Graph.dijkstra g).grid := by
  unfold Graph.dijkstra
  split
  · rename_i s hs
    refine statesOnly_trans (statesOnly_updateCell_keep g.grid s.1 s.2
      (fun c => { c with g := some 0, pred := none }) (fun x => rfl)) ?_
    exact statesOnly_searchLoop false s g.end_ (g.rows * g.rows * 4 + 1)
      ⟨updateCell g.grid s.1 s.2 (fun c => { c with g := some 0, pred := none }),
        [⟨0, 0, s⟩], 1⟩
  · exact statesOnly_refl _ _

theorem mark_path_fields (g : Graph) (b : Bool) :
    (Graph.mark_path g b).start = g.start ∧ (Graph.mark_path g b).end_ = g.end_ ∧
      (Graph.mark_path g b).rows = g.rows ∧ (Graph.mark_path g b).paths = g.paths := by
  unfold Graph.mark_path
  split
  · exact ⟨rfl, rfl, rfl, rfl⟩
  · exact ⟨rfl, rfl, rfl, rfl⟩

theorem statesOnly_mark_path (g : Graph) (b : Bool) :
    StatesOnly [State.PATH, State.CLOSED] g.grid (Graph.mark_path g b).grid := by
  unfold Graph.mark_path
  split
  · exact statesOnly_refl _ _
  · rename_i e he
    refine statesOnly_mono [if b then State.PATH else State.CLOSED] _ ?_
      (statesOnly_markChain g.start (if b then State.PATH else State.CLOSED)
        (g.rows * g.rows) g.grid ((gridGet g.grid e.1 e.2).bind Cell.pred))
    intro s hs
    rw [List.mem_singleton.1 hs]
    cases b <;> simp

theorem statesOnly_reset_discovered (g : Graph) :
    StatesOnly [State.EMPTY] g.grid (Graph.reset_discovered g).grid := by
  refine statesOnly_map g.grid _ ?_
  intro x
  by_cases h : x.state = State.OPEN ∨ x.state = State.CLOSED ∨ x.state = State.PATH
  · rw [if_pos h]
    exact Or.inr ⟨State.EMPTY, by simp, rfl⟩
  · rw [if_neg h]
    exact Or.inl rfl

theorem reset_discovered_fields (g : Graph) :
    (Graph.reset_discovered g).start = g.start ∧
      (Graph.reset_discovered g).end_ = g.end_ ∧
      (Graph.reset_discovered g).paths = g.paths := ⟨rfl, rfl, rfl⟩

theorem statesOnly_mazeFill (grid : List (List Cell)) (sr er : Option (Nat × Nat))
    (pick : Nat → Bool) :
    StatesOnly [State.BARRIER] grid (mazeFill grid sr er pick) := by
  refine statesOnly_map grid _ ?_
  intro x
  by_cases h : sr ≠ some (x.row, x.col) ∧ er ≠ some (x.row, x.col) ∧
      pick (x.row * 4096 + x.col) = true
  · rw [if_pos h]
    exact Or.inr ⟨State.BARRIER, by simp, rfl⟩
  · rw [if_neg h]
    exact Or.inl rfl

theorem mazeGo_fields (rand : Nat → Nat → Bool) (g : Graph) :
    ∀ n, (mazeGo rand g n).start = g.start ∧ (mazeGo rand g n).end_ = g.end_ ∧
      (mazeGo rand g n).paths = g.paths := by
  intro n
  induction n with
  | zero => exact ⟨rfl, rfl, rfl⟩
  | succ n ih =>
    rw [mazeGo]
    split
    · exact ⟨rfl, rfl, rfl⟩
    · exact ih

theorem statesOnly_mazeGo (rand : Nat → Nat → Bool) (g : Graph) :
    ∀ n, StatesOnly [State.BARRIER] g.grid (mazeGo rand g n).grid := by
  intro n
  induction n with
  | zero => exact statesOnly_refl _ _
  | succ n ih =>
    rw [mazeGo]
    split
    · exact statesOnly_mazeFill g.grid g.start g.end_ (rand n)
    · exact ih

/-- The strengthened inductive invariant the handler maintains: every cell in
START state is the designated start, every cell in END state is the
designated end, the two references are distinct, and neither reference
points at a BARRIER-state cell. -/
def Inv (g : Graph) : Prop :=
  (∀ p : Nat × Nat, stateAt g.grid p = some State.START → g.start = some p) ∧
  (∀ p : Nat × Nat, stateAt g.grid p = some State.END → g.end_ = some p) ∧
  (∀ p q : Nat × Nat, g.start = some p → g.end_ = some q → p ≠ q) ∧
  (∀ p : Nat × Nat, g.start = some p → stateAt g.grid p ≠ some State.BARRIER) ∧
  (∀ p : Nat × Nat, g.end_ = some p → stateAt g.grid p ≠ some State.BARRIER)

/-- The grid invariants as the spec states them (spec §3, §8): at most one
START cell, at most one END cell, distinct start/end references, and no
BARRIER cell is the designated start or end. -/
def ClaimInv (g : Graph) : Prop :=
  (∀ p q : Nat × Nat, stateAt g.grid p = some State.START →
    stateAt g.grid q = some State.START → p = q) ∧
  (∀ p q : Nat × Nat, stateAt g.grid p = some State.END →
    stateAt g.grid q = some State.END → p = q) ∧
  (∀ p q : Nat × Nat, g.start = some p → g.end_ = some q → p ≠ q) ∧
  (∀ p : Nat × Nat, stateAt g.grid p = some State.BARRIER →
    g.start ≠ some p ∧ g.end_ ≠ some p)

theorem inv_implies_claimInv {g : Graph} (h : Inv g) : ClaimInv g := by
  obtain ⟨ha, hb, hc, hd, he⟩ := h
  refine ⟨?_, ?_, hc, ?_⟩
  · intro p q hp hq
    have h1 := ha p hp
    have h2 := ha q hq
    rw [h1] at h2
    exact (Option.some.inj h2)
  · intro p q hp hq
    have h1 := hb p hp
    have h2 := hb q hq
    rw [h1] at h2
    exact (Option.some.inj h2)
  · intro p hp
    constructor
    · intro hs
      exact hd p hs hp
    · intro hs
      exact he p hs hp

theorem inv_of_statesOnly {g g' : Graph} {S : List State}
    (hstart : g'.start = g.start) (hend : g'.end_ = g.end_)
    (hso : StatesOnly S g.grid g'.grid)
    (hS1 : State.START ∉ S) (hS2 : State.END ∉ S) (hS3 : State.BARRIER ∉ S)
    (h : Inv g) : Inv g' := by
  obtain ⟨ha, hb, hc, hd, he⟩ := h
  refine ⟨?_, ?_, ?_, ?_, ?_⟩
  · intro p hp
    rcases hso p with heq | ⟨s, hs, hval⟩
    · rw [heq] at hp
      rw [hstart]
      exact ha p hp
    · rw [hval] at hp
      exact absurd (Option.some.inj hp ▸ hs) hS1
  · intro p hp
    rcases hso p with heq | ⟨s, hs, hval⟩
    · rw [heq] at hp
      rw [hend]
      exact hb p hp
    · rw [hval] at hp
      exact absurd (Option.some.inj hp ▸ hs) hS2
  · intro p q hp hq
    exact hc p q (hstart ▸ hp) (hend ▸ hq)
  · intro p hp
    rcases hso p with heq | ⟨s, hs, hval⟩
    · rw [heq]
      exact hd p (hstart ▸ hp)
    · rw [hval]
      intro hcon
      exact absurd (Option.some.inj hcon ▸ hs) hS3
  · intro p hp
    rcases hso p with heq | ⟨s, hs, hval⟩
    · rw [heq]
      exact he p (hend ▸ hp)
    · rw [hval]
      intro hcon
      exact absurd (Option.some.inj hcon ▸ hs) hS3

theorem stateAt_updateCell_at (grid : List (List Cell)) (r c : Nat) (f : Cell → Cell) :
    stateAt (updateCell grid r c f) (r, c) = ((gridGet grid r c).map f).map Cell.state := by
  unfold stateAt
  rw [gridGet_updateCell]
  simp

theorem stateAt_updateCell_ne (grid : List (List Cell)) (r c : Nat) (f : Cell → Cell)
    (p : Nat × Nat) (hp : p ≠ (r, c)) :
    stateAt (updateCell grid r c f) p = stateAt grid p := by
  unfold stateAt
  rw [gridGet_updateCell]
  have hno : ¬(r = p.1 ∧ c = p.2) := by
    intro hcon
    apply hp
    obtain ⟨h1, h2⟩ := hcon
    cases p
    simp_all
  simp [hno]

theorem stateAt_set_at (grid : List (List Cell)) (r c : Nat) (f : Cell → Cell)
    (s t : State) (hf : ∀ x, (f x).state = s) (hst : s ≠ t) :
    stateAt (updateCell grid r c f) (r, c) ≠ some t := by
  rw [stateAt_updateCell_at]
  rcases gridGet grid r c with _ | x
  · simp
  · simp [hf, hst]

theorem statesOnly_back {S : List State} {g1 g2 : List (List Cell)}
    (h : StatesOnly S g1 g2) (p : Nat × Nat) (t : State) (ht : t ∉ S)
    (hp : stateAt g2 p = some t) : stateAt g1 p = some t := by
  rcases h p with heq | ⟨s, hs, hval⟩
  · rw [← heq]
    exact hp
  · rw [hval] at hp
    exact absurd (Option.some.inj hp ▸ hs) ht

theorem inv_primaryClick {g : Graph} (r c : Nat) (h : Inv g) :
    Inv (primaryClick g r c) := by
  obtain ⟨ha, hb, hc, hd, he⟩ := h
  unfold primaryClick
  split
  · rename_i hcond
    obtain ⟨hs0, hne⟩ := hcond
    unfold Graph.set_start
    refine ⟨?_, ?_, ?_, ?_, ?_⟩
    · intro p hp
      by_cases hpe : p = (r, c)
      · subst hpe; rfl
      · rw [stateAt_updateCell_ne _ _ _ _ _ hpe] at hp
        have := ha p hp
        rw [hs0] at this
        exact absurd this (by simp)
    · intro p hp
      by_cases hpe : p = (r, c)
      · subst hpe
        exact absurd hp (stateAt_set_at _ _ _ _ State.START State.END
          (fun x => rfl) (by decide))
      · rw [stateAt_updateCell_ne _ _ _ _ _ hpe] at hp
        exact hb p hp
    · intro p q hp hq
      have hpe : p = (r, c) := by
        have := Option.some.inj hp
        exact this.symm
      subst hpe
      intro heq
      exact hne (heq ▸ hq)
    · intro p hp
      have hpe : p = (r, c) := (Option.some.inj hp).symm
      subst hpe
      exact stateAt_set_at _ _ _ _ State.START State.BARRIER (fun x => rfl) (by decide)
    · intro p hp
      have hpne : p ≠ (r, c) := by
        intro heq
        exact hne (heq ▸ hp)
      rw [stateAt_updateCell_ne _ _ _ _ _ hpne]
      exact he p hp
  · rename_i hcond1
    split
    · rename_i hcond2
      obtain ⟨hnee, hnes, hpaths⟩ := hcond2
      refine ⟨?_, ?_, hc, ?_, ?_⟩
      · intro p hp
        by_cases hpe : p = (r, c)
        · subst hpe
          exact absurd hp (stateAt_set_at _ _ _ _ State.BARRIER State.START
            (fun x => rfl) (by decide))
        · rw [stateAt_updateCell_ne _ _ _ _ _ hpe] at hp
          exact ha p hp
      · intro p hp
        by_cases hpe : p = (r, c)
        · subst hpe
          exact absurd hp (stateAt_set_at _ _ _ _ State.BARRIER State.END
            (fun x => rfl) (by decide))
        · rw [stateAt_updateCell_ne _ _ _ _ _ hpe] at hp
          exact hb p hp
      · intro p hp
        have hpne : p ≠ (r, c) := by
          intro heq
          exact hnes (heq ▸ hp)
        rw [stateAt_updateCell_ne _ _ _ _ _ hpne]
        exact hd p hp
      · intro p hp
        have hpne : p ≠ (r, c) := by
          intro heq
          exact hnee (heq ▸ hp)
        rw [stateAt_updateCell_ne _ _ _ _ _ hpne]
        exact he p hp
    · exact ⟨ha, hb, hc, hd, he⟩

theorem inv_set_end {g : Graph} (r c : Nat) (he0 : g.end_ = none)
    (hnes : g.start ≠ some (r, c)) (h : Inv g) : Inv (Graph.set_end g r c) := by
  obtain ⟨ha, hb, hc, hd, he⟩ := h
  unfold Graph.set_end
  refine ⟨?_, ?_, ?_, ?_, ?_⟩
  · intro p hp
    by_cases hpe : p = (r, c)
    · subst hpe
      exact absurd hp (stateAt_set_at _ _ _ _ State.END State.START
        (fun x => rfl) (by decide))
    · rw [stateAt_updateCell_ne _ _ _ _ _ hpe] at hp
      exact ha p hp
  · intro p hp
    by_cases hpe : p = (r, c)
    · subst hpe; rfl
    · rw [stateAt_updateCell_ne _ _ _ _ _ hpe] at hp
      have := hb p hp
      rw [he0] at this
      exact absurd this (by simp)
  · intro p q hp hq
    have hqe : q = (r, c) := (Option.some.inj hq).symm
    subst hqe
    intro heq
    exact hnes (heq ▸ hp)
  · intro p hp
    have hpne : p ≠ (r, c) := by
      intro heq
      exact hnes (heq ▸ hp)
    rw [stateAt_updateCell_ne _ _ _ _ _ hpne]
    exact hd p hp
  · intro p hp
    have hpe : p = (r, c) := (Option.some.inj hp).symm
    subst hpe
    exact stateAt_set_at _ _ _ _ State.END State.BARRIER (fun x => rfl) (by decide)

theorem inv_secondaryClick {g : Graph} (r c : Nat) (node : Cell) (h : Inv g) :
    Inv (secondaryClick g r c node) := by
  unfold secondaryClick
  split
  · rename_i hcond
    obtain ⟨he0, hnes, _⟩ := hcond
    have h1 : Inv (Graph.set_end g r c) := inv_set_end r c he0 hnes h
    show Inv (if (Graph.set_end g r c).paths = true
      then Graph.mark_path (Graph.set_end g r c) false else Graph.set_end g r c)
    split
    · exact inv_of_statesOnly (mark_path_fields _ _).1 (mark_path_fields _ _).2.1
        (statesOnly_mark_path _ _) (by decide) (by decide) (by decide) h1
    · exact h1
  · exact h

theorem statesOnly_not {S : List State} {g1 g2 : List (List Cell)}
    (h : StatesOnly S g1 g2) (p : Nat × Nat) (t : State) (ht : t ∉ S)
    (hne : stateAt g1 p ≠ some t) : stateAt g2 p ≠ some t :=
  fun hcon => hne (statesOnly_back h p t ht hcon)

theorem inv_tertiaryClick {g : Graph} (r c : Nat) (node : Cell) (h : Inv g) :
    Inv (tertiaryClick g r c node) := by
  obtain ⟨ha, hb, hc, hd, he⟩ := h
  unfold tertiaryClick
  split
  · rename_i hcond
    show Inv (
      if g.start = some (r, c) then
        { g with grid := updateCell g.grid r c Cell.reset, start := none }
      else if g.end_ = some (r, c) then
        if g.paths = true then
          { Graph.mark_path { g with grid := updateCell g.grid r c Cell.reset } true with
            grid := updateCell
              (Graph.mark_path { g with grid := updateCell g.grid r c Cell.reset } true).grid
              r c Cell.set_closed,
            end_ := none }
        else { g with grid := updateCell g.grid r c Cell.reset, end_ := none }
      else { g with grid := updateCell g.grid r c Cell.reset })
    split
    · rename_i hs
      refine ⟨?_, ?_, ?_, ?_, ?_⟩
      · intro p hp
        by_cases hpe : p = (r, c)
        · subst hpe
          exact absurd hp (stateAt_set_at _ _ _ _ State.EMPTY State.START
            (fun x => rfl) (by decide))
        · rw [stateAt_updateCell_ne _ _ _ _ _ hpe] at hp
          have hsp := ha p hp
          rw [hs] at hsp
          exact absurd (Option.some.inj hsp).symm hpe
      · intro p hp
        by_cases hpe : p = (r, c)
        · subst hpe
          exact absurd hp (stateAt_set_at _ _ _ _ State.EMPTY State.END
            (fun x => rfl) (by decide))
        · rw [stateAt_updateCell_ne _ _ _ _ _ hpe] at hp
          exact hb p hp
      · intro p q hp hq
        exact absurd hp (by simp)
      · intro p hp
        exact absurd hp (by simp)
      · intro p hp
        have hpne : p ≠ (r, c) := fun heq => hc (r, c) p hs hp heq.symm
        rw [stateAt_updateCell_ne _ _ _ _ _ hpne]
        exact he p hp
    · rename_i hsne
      split
      · rename_i hee
        split
        · rename_i hpaths
          have hso : StatesOnly [State.PATH, State.CLOSED]
              (updateCell g.grid r c Cell.reset)
              (Graph.mark_path { g with grid := updateCell g.grid r c Cell.reset } true).grid :=
            statesOnly_mark_path { g with grid := updateCell g.grid r c Cell.reset } true
          have hmpstart :
              (Graph.mark_path { g with grid := updateCell g.grid r c Cell.reset } true).start
                = g.start :=
            (mark_path_fields { g with grid := updateCell g.grid r c Cell.reset } true).1
          refine ⟨?_, ?_, ?_, ?_, ?_⟩
          · intro p hp
            by_cases hpe : p = (r, c)
            · subst hpe
              exact absurd hp (stateAt_set_at _ _ _ _ State.CLOSED State.START
                (fun x => rfl) (by decide))
            · rw [stateAt_updateCell_ne _ _ _ _ _ hpe] at hp
              have h2 := statesOnly_back hso p State.START (by decide) hp
              rw [stateAt_updateCell_ne _ _ _ _ _ hpe] at h2
              show (Graph.mark_path _ true).start = some p
              rw [hmpstart]
              exact ha p h2
          · intro p hp
            by_cases hpe : p = (r, c)
            · subst hpe
              exact absurd hp (stateAt_set_at _ _ _ _ State.CLOSED State.END
                (fun x => rfl) (by decide))
            · rw [stateAt_updateCell_ne _ _ _ _ _ hpe] at hp
              have h2 := statesOnly_back hso p State.END (by decide) hp
              rw [stateAt_updateCell_ne _ _ _ _ _ hpe] at h2
              have h3 := hb p h2
              rw [hee] at h3
              exact absurd (Option.some.inj h3).symm hpe
          · intro p q hp hq
            exact absurd hq (by simp)
          · intro p hp
            have hps : g.start = some p := by
              rw [← hmpstart]
              exact hp
            have hpne : p ≠ (r, c) := fun heq => hsne (heq ▸ hps)
            rw [stateAt_updateCell_ne _ _ _ _ _ hpne]
            refine statesOnly_not hso p State.BARRIER (by decide) ?_
            rw [stateAt_updateCell_ne _ _ _ _ _ hpne]
            exact hd p hps
          · intro p hp
            exact absurd hp (by simp)
        · rename_i hpaths
          refine ⟨?_, ?_, ?_, ?_, ?_⟩
          · intro p hp
            by_cases hpe : p = (r, c)
            · subst hpe
              exact absurd hp (stateAt_set_at _ _ _ _ State.EMPTY State.START
                (fun x => rfl) (by decide))
            · rw [stateAt_updateCell_ne _ _ _ _ _ hpe] at hp
              exact ha p hp
          · intro p hp
            by_cases hpe : p = (r, c)
            · subst hpe
              exact absurd hp (stateAt_set_at _ _ _ _ State.EMPTY State.END
                (fun x => rfl) (by decide))
            · rw [stateAt_updateCell_ne _ _ _ _ _ hpe] at hp
              have h3 := hb p hp
              rw [hee] at h3
              exact absurd (Option.some.inj h3).symm hpe
          · intro p q hp hq
            exact absurd hq (by simp)
          · intro p hp
            have hpne : p ≠ (r, c) := fun heq => hsne (heq ▸ hp)
            rw [stateAt_updateCell_ne _ _ _ _ _ hpne]
            exact hd p hp
          · intro p hp
            exact absurd hp (by simp)
      · rename_i hene
        refine ⟨?_, ?_, hc, ?_, ?_⟩
        · intro p hp
          by_cases hpe : p = (r, c)
          · subst hpe
            exact absurd hp (stateAt_set_at _ _ _ _ State.EMPTY State.START
              (fun x => rfl) (by decide))
          · rw [stateAt_updateCell_ne _ _ _ _ _ hpe] at hp
            exact ha p hp
        · intro p hp
          by_cases hpe : p = (r, c)
          · subst hpe
            exact absurd hp (stateAt_set_at _ _ _ _ State.EMPTY State.END
              (fun x => rfl) (by decide))
          · rw [stateAt_updateCell_ne _ _ _ _ _ hpe] at hp
            exact hb p hp
        · intro p hp
          have hpne : p ≠ (r, c) := fun heq => hsne (heq ▸ hp)
          rw [stateAt_updateCell_ne _ _ _ _ _ hpne]
          exact hd p hp
        · intro p hp
          have hpne : p ≠ (r, c) := fun heq => hene (heq ▸ hp)
          rw [stateAt_updateCell_ne _ _ _ _ _ hpne]
          exact he p hp
  · exact ⟨ha, hb, hc, hd, he⟩

theorem stateAt_reset (g : Graph) (p : Nat × Nat) :
    stateAt (Graph.reset g).grid p = none ∨
      stateAt (Graph.reset g).grid p = some State.EMPTY := by
  show stateAt (g.grid.map (List.map Cell.reset)) p = none ∨
    stateAt (g.grid.map (List.map Cell.reset)) p = some State.EMPTY
  unfold stateAt
  rw [gridGet_map]
  cases gridGet g.grid p.1 p.2
  · exact Or.inl rfl
  · exact Or.inr rfl

theorem inv_reset (g : Graph) : Inv (Graph.reset g) := by
  refine ⟨?_, ?_, ?_, ?_, ?_⟩
  · intro p hp
    rcases stateAt_reset g p with hr | hr <;> rw [hr] at hp
    · exact absurd hp (by simp)
    · exact absurd (Option.some.inj hp) (by decide)
  · intro p hp
    rcases stateAt_reset g p with hr | hr <;> rw [hr] at hp
    · exact absurd hp (by simp)
    · exact absurd (Option.some.inj hp) (by decide)
  · intro p q hp hq
    exact absurd hp (by simp [Graph.reset])
  · intro p hp
    exact absurd hp (by simp [Graph.reset])
  · intro p hp
    exact absurd hp (by simp [Graph.reset])

theorem inv_generate_maze_reset (rand : Nat → Nat → Bool) (g : Graph) :
    Inv (Graph.generate_maze rand (Graph.reset g)) := by
  unfold Graph.generate_maze
  have hf := mazeGo_fields rand (Graph.reset g) 8
  have hso := statesOnly_mazeGo rand (Graph.reset g) 8
  refine ⟨?_, ?_, ?_, ?_, ?_⟩
  · intro p hp
    have h2 := statesOnly_back hso p State.START (by decide) hp
    rcases stateAt_reset g p with hr | hr <;> rw [hr] at h2
    · exact absurd h2 (by simp)
    · exact absurd (Option.some.inj h2) (by decide)
  · intro p hp
    have h2 := statesOnly_back hso p State.END (by decide) hp
    rcases stateAt_reset g p with hr | hr <;> rw [hr] at h2
    · exact absurd h2 (by simp)
    · exact absurd (Option.some.inj h2) (by decide)
  · intro p q hp hq
    rw [hf.1] at hp
    exact absurd hp (by simp [Graph.reset])
  · intro p hp
    rw [hf.1] at hp
    exact absurd hp (by simp [Graph.reset])
  · intro p hp
    rw [hf.2.1] at hp
    exact absurd hp (by simp [Graph.reset])

theorem inv_aStarCmd {g : Graph} (h : Inv g) : Inv (aStarCmd g) := by
  unfold aStarCmd
  have h1 : Inv (Graph.a_star g) :=
    inv_of_statesOnly (a_star_fields g).1 (a_star_fields g).2.1
      (statesOnly_a_star g) (by decide) (by decide) (by decide) h
  show Inv (if (Graph.a_star g).end_.isSome = true
    then Graph.mark_path (Graph.a_star g) false else Graph.a_star g)
  split
  · exact inv_of_statesOnly (mark_path_fields _ _).1 (mark_path_fields _ _).2.1
      (statesOnly_mark_path _ _) (by decide) (by decide) (by decide) h1
  · exact h1

theorem inv_dijkstraCmd {g : Graph} (h : Inv g) : Inv (dijkstraCmd g) := by
  unfold dijkstraCmd
  have h1 : Inv (Graph.dijkstra g) :=
    inv_of_statesOnly (dijkstra_fields g).1 (dijkstra_fields g).2.1
      (statesOnly_dijkstra g) (by decide) (by decide) (by decide) h
  show Inv (if (Graph.dijkstra g).end_.isSome = true
    then Graph.mark_path (Graph.dijkstra g) false else Graph.dijkstra g)
  split
  · exact inv_of_statesOnly (mark_path_fields _ _).1 (mark_path_fields _ _).2.1
      (statesOnly_mark_path _ _) (by decide) (by decide) (by decide) h1
  · exact h1

theorem inv_handleKeydown (rand : Nat → Nat → Bool) {g : Graph} (k : Key)
    (h : Inv g) : Inv (handleKeydown rand g k) := by
  unfold handleKeydown
  split
  · exact inv_reset g
  · split
    · exact inv_of_statesOnly (reset_discovered_fields g).1
        (reset_discovered_fields g).2.1 (statesOnly_reset_discovered g)
        (by decide) (by decide) (by decide) h
    · split
      · exact inv_aStarCmd h
      · split
        · exact inv_dijkstraCmd h
        · split
          · exact inv_generate_maze_reset rand g
          · exact h

theorem inv_handleEvent {g g' : Graph} (vw : Nat) (rand : Nat → Nat → Bool)
    (ev : Event) (m : Mouse) (h : Inv g)
    (hres : handleEvent g vw rand ev m = HandleResult.ok g') : Inv g' := by
  simp only [handleEvent] at hres
  split at hres
  · exact absurd hres (by simp)
  · split at hres
    · split at hres
      · exact absurd hres (by simp)
      · injection hres with hh
        rw [← hh]
        exact inv_primaryClick _ _ ⟨h.1, h.2.1, h.2.2.1, h.2.2.2.1, h.2.2.2.2⟩
    · split at hres
      · split at hres
        · exact absurd hres (by simp)
        · injection hres with hh
          rw [← hh]
          exact inv_secondaryClick _ _ _ ⟨h.1, h.2.1, h.2.2.1, h.2.2.2.1, h.2.2.2.2⟩
      · split at hres
        · split at hres
          · exact absurd hres (by simp)
          · injection hres with hh
            rw [← hh]
            exact inv_tertiaryClick _ _ _ ⟨h.1, h.2.1, h.2.2.1, h.2.2.2.1, h.2.2.2.2⟩
        · split at hres
          · injection hres with hh
            rw [← hh]
            exact inv_handleKeydown rand _ h
          · injection hres with hh
            rw [← hh]
            exact h

theorem gridGet_mkGrid (n r c : Nat) (x : Cell)
    (h : gridGet (mkGrid n) r c = some x) : x.state = State.EMPTY := by
  unfold mkGrid gridGet at h
  rw [List.get?_map] at h
  rcases hr : (List.range n).get? r with _ | rv
  · rw [hr] at h
    simp at h
  · rw [hr] at h
    simp only [Option.map_some', Option.some_bind] at h
    rw [List.get?_map] at h
    rcases hcq : (List.range n).get? c with _ | cv
    · rw [hcq] at h
      simp at h
    · rw [hcq] at h
      simp only [Option.map_some'] at h
      injection h with h2
      rw [← h2]

theorem inv_gInit (n w : Nat) : Inv (Graph.init n w) := by
  refine ⟨?_, ?_, ?_, ?_, ?_⟩
  · intro p hp
    unfold stateAt at hp
    rcases hg : gridGet (Graph.init n w).grid p.1 p.2 with _ | x
    · rw [hg] at hp
      simp at hp
    · rw [hg] at hp
      simp only [Option.map_some'] at hp
      have hx := gridGet_mkGrid n p.1 p.2 x hg
      rw [hx] at hp
      exact absurd (Option.some.inj hp) (by decide)
  · intro p hp
    unfold stateAt at hp
    rcases hg : gridGet (Graph.init n w).grid p.1 p.2 with _ | x
    · rw [hg] at hp
      simp at hp
    · rw [hg] at hp
      simp only [Option.map_some'] at hp
      have hx := gridGet_mkGrid n p.1 p.2 x hg
      rw [hx] at hp
      exact absurd (Option.some.inj hp) (by decide)
  · intro p q hp hq
    exact absurd hp (by simp [Graph.init])
  · intro p hp
    exact absurd hp (by simp [Graph.init])
  · intro p hp
    exact absurd hp (by simp [Graph.init])

/-- A fixed trivial randomness source for concrete evaluations. -/
def rand0 : Nat → Nat → Bool := fun _ _ => false

theorem pyRound_even (n : Nat) (h : n % 2 = 0) : pyRound n 2 = n / 2 := by
  unfold pyRound
  rw [h]
  simp

/-- C9: `GUI(rows, width)` builds the underlying graph with `round(rows/2)`
rows (exactly half when `rows` is even) and cell width `2*round(width/rows)`,
while `self.columns` is set to the full `rows` argument, so the grid the
algorithms operate on has half as many rows as the constructor argument
advertises. -/
theorem gui_init_shape (rows width : Nat) (h : 0 < rows) :
    (GUI.init rows width).graph = Graph.init (pyRound rows 2) (2 * pyRound width rows) ∧
    (GUI.init rows width).graph.rows = pyRound rows 2 ∧
    (GUI.init rows width).columns = rows ∧
    (GUI.init rows width).vertex_width = 2 * pyRound width rows ∧
    (rows % 2 = 0 → 2 * (GUI.init rows width).graph.rows = rows) := by
  refine ⟨rfl, rfl, rfl, rfl, ?_⟩
  intro he
  show 2 * pyRound rows 2 = rows
  rw [pyRound_even rows he]
  exact Nat.mul_div_cancel' (Nat.dvd_of_mod_eq_zero he)

/-- Witness for C9 at `GUI(50, 800)`: the graph has 25 rows, half of 50. -/
theorem gui_init_shape_witness :
    (GUI.init 50 800).graph = Graph.init (pyRound 50 2) (2 * pyRound 800 50) ∧
    (GUI.init 50 800).graph.rows = pyRound 50 2 ∧
    (GUI.init 50 800).columns = 50 ∧
    (GUI.init 50 800).vertex_width = 2 * pyRound 800 50 ∧
    (50 % 2 = 0 → 2 * (GUI.init 50 800).graph.rows = 50) :=
  gui_init_shape 50 800 (by decide)

/-- C2 (code bug): the pointer position is indeed mapped to
`(row, col) = (y // vertex_width, x // vertex_width)`, but out-of-grid
coordinates are NOT ignored: `GUI(49, 800)` yields a 24-row grid with
32-pixel cells, an in-window click at `(x, y) = (0, 790)` maps to row 24,
and the handler's unguarded `graph.grid[row][col]` lookup fails (an
IndexError escapes) instead of the event being silently dropped. -/
theorem click_out_of_bounds_raises :
    (∀ vw x y : Nat, get_click_pos vw (x, y) = (y / vw, x / vw)) ∧
    (GUI.init 49 800).vertex_width = 32 ∧
    (GUI.init 49 800).graph.rows = 24 ∧
    get_click_pos 32 (0, 790) = (24, 0) ∧
    handleEvent (GUI.init 49 800).graph 32 rand0 Event.other
      ⟨true, false, false, (0, 790)⟩ = HandleResult.err :=
  ⟨fun vw x y => rfl, rfl, rfl, rfl, rfl⟩

/-- C8 (code bug): `GUI.loop` runs `while self.handle_events(): self.draw()`,
but `draw(self, fps)` requires an `fps` argument and the loop passes none, so
every iteration that reaches the draw call raises a TypeError (shown here on
the initial grid with an empty event queue); a call with one argument would
have succeeded. -/
theorem loop_iteration_raises_typeError :
    loopIter (Graph.init 2 8) 8 rand0 [] = Except.error PyErr.typeError ∧
    drawCall (Graph.init 2 8) 8 [30] = Except.ok (draw (Graph.init 2 8) 8 30) :=
  ⟨rfl, rfl⟩

/-- C5: the A* key runs only when both start and end are designated and the
Dijkstra key only when a start is designated; pressing either key without
the required cells leaves the graph unchanged. -/
theorem key_commands_require_cells (g : Graph) (rand : Nat → Nat → Bool) :
    ((g.start = none ∨ g.end_ = none) → handleKeydown rand g Key.k_a = g) ∧
    (g.start = none → handleKeydown rand g Key.k_d = g) ∧
    (g.start.isSome → g.end_.isSome → handleKeydown rand g Key.k_a = aStarCmd g) ∧
    (g.start.isSome → handleKeydown rand g Key.k_d = dijkstraCmd g) := by
  refine ⟨?_, ?_, ?_, ?_⟩
  · intro hmiss
    unfold handleKeydown
    rcases hmiss with hs | he
    · simp [hs]
    · simp [he]
  · intro hs
    unfold handleKeydown
    simp [hs]
  · intro hs he
    unfold handleKeydown
    simp [hs, he]
  · intro hs
    unfold handleKeydown
    simp [hs]

/-- Witness for C5: pressing A on the fresh grid (no start, no end) is a
no-op. -/
theorem key_commands_require_cells_witness :
    handleKeydown rand0 (Graph.init 4 8) Key.k_a = Graph.init 4 8 :=
  (key_commands_require_cells (Graph.init 4 8) rand0).1 (Or.inl rfl)

/-- C6: any event the handler completes on an invariant-satisfying graph
yields a graph with at most one START cell, at most one END cell, distinct
start/end references, and no BARRIER cell designated as start or end. -/
theorem event_preserves_claimed_invariants {g g' : Graph} (vw : Nat)
    (rand : Nat → Nat → Bool) (ev : Event) (m : Mouse) (h : Inv g)
    (hres : handleEvent g vw rand ev m = HandleResult.ok g') : ClaimInv g' :=
  inv_implies_claimInv (inv_handleEvent vw rand ev m h hres)

/-- Witness for C6: the ESC reset event on the fresh 2-row grid. -/
theorem event_preserves_claimed_invariants_witness :
    ClaimInv (Graph.reset (Graph.init 2 8)) :=
  event_preserves_claimed_invariants 8 rand0 (Event.keydown Key.k_escape)
    ⟨false, false, false, (0, 0)⟩ (inv_gInit 2 8) rfl

/-- C7: the maze key performs a full reset (all cells EMPTY, start/end/paths
cleared) and hands exactly that reset graph to the maze generator. -/
theorem maze_key_resets_first (g : Graph) (rand : Nat → Nat → Bool) :
    handleKeydown rand g Key.k_m = Graph.generate_maze rand (Graph.reset g) ∧
    (Graph.reset g).start = none ∧ (Graph.reset g).end_ = none ∧
    (Graph.reset g).paths = false ∧
    (∀ p : Nat × Nat, stateAt (Graph.reset g).grid p = none ∨
      stateAt (Graph.reset g).grid p = some State.EMPTY) := by
  refine ⟨?_, rfl, rfl, rfl, stateAt_reset g⟩
  unfold handleKeydown
  simp

/-- Concrete graph with a computed path flag, a designated start, and no end
(the state reached by deleting the END cell while a path exists). -/
def gC1 : Graph :=
  { rows := 2,
    grid := [[⟨0, 0, State.START, none, none⟩, ⟨0, 1, State.EMPTY, none, none⟩],
             [⟨1, 0, State.EMPTY, none, none⟩, ⟨1, 1, State.EMPTY, none, none⟩]],
    start := some (0, 0), end_ := none, paths := true }

/-- C1 counterexample: while `paths` is true, a secondary click on a free
cell DOES assign a new end (the handler guards end assignment only on the
end being unset, not on `paths`), so the claim that every start/end/barrier
edit is a no-op while a path exists is false. -/
theorem paths_does_not_block_end_assignment :
    gC1.paths = true ∧ gC1.end_ = none ∧
    (resultGraph (handleEvent gC1 1 rand0 Event.other
      ⟨false, true, false, (1, 1)⟩)).map Graph.end_ = some (some (1, 1)) :=
  ⟨rfl, rfl, rfl⟩

/-- C1 (amended): while a computed path exists, primary clicks are no-ops
whenever a start is designated (in particular no barrier is ever placed) and
tertiary clicks are no-ops on every cell except the one in END state; end
editing is not blocked by the `paths` flag (a secondary click can assign a
new end when none is designated, and a tertiary click can delete the END
cell). -/
theorem paths_blocks_barrier_start_edits (g : Graph) (r c : Nat) (node : Cell)
    (hp : g.paths = true) :
    (g.start ≠ none → primaryClick g r c = g) ∧
    (node.state ≠ State.END → tertiaryClick g r c node = g) := by
  constructor
  · intro hs
    unfold primaryClick
    have h1 : ¬(g.start = none ∧ g.end_ ≠ some (r, c)) := fun hcon => hs hcon.1
    have h2 : ¬(g.end_ ≠ some (r, c) ∧ g.start ≠ some (r, c) ∧ g.paths = false) := by
      intro hcon
      rw [hp] at hcon
      exact absurd hcon.2.2 (by decide)
    rw [if_neg h1, if_neg h2]
  · intro hne
    unfold tertiaryClick
    rw [if_neg]
    intro hcon
    rcases hcon with h1 | h2 | h3
    · exact hne h1
    · rw [hp] at h2
      exact absurd h2.1 (by decide)
    · rw [hp] at h3
      exact absurd h3.1 (by decide)

/-- Witness for the amended C1 on a concrete path-ed graph. -/
theorem paths_blocks_barrier_start_edits_witness :
    primaryClick gC1 1 1 = gC1 ∧
    tertiaryClick gC1 1 1 (Cell.mk 1 1 State.EMPTY none none) = gC1 :=
  ⟨(paths_blocks_barrier_start_edits gC1 1 1 (Cell.mk 1 1 State.EMPTY none none) rfl).1
      (by simp [gC1]),
   (paths_blocks_barrier_start_edits gC1 1 1 (Cell.mk 1 1 State.EMPTY none none) rfl).2
      (by decide)⟩

/-- Concrete graph with no start and an END cell at (0, 0). -/
def gC3 : Graph :=
  { rows := 1, grid := [[⟨0, 0, State.END, none, none⟩]],
    start := none, end_ := some (0, 0), paths := false }

/-- C3 counterexample: with no start designated, a primary click on the END
cell does NOT make it the start (the handler additionally requires the
clicked node to differ from the end), refuting the claim's unconditional
"if no start cell is currently designated, the clicked cell becomes
START". -/
theorem primary_on_end_cell_is_noop :
    gC3.start = none ∧
    resultGraph (handleEvent gC3 1 rand0 Event.other
      ⟨true, false, false, (0, 0)⟩) = some gC3 ∧
    stateAt gC3.grid (0, 0) = some State.END :=
  ⟨rfl, rfl, rfl⟩

/-- C3 (amended): a primary click sets the start iff no start is designated
AND the clicked cell is not the designated end; otherwise it places a
barrier iff no path exists and the clicked cell is neither the designated
start nor the designated end (its other state — e.g. CLOSED — does not
prevent barrier placement). -/
theorem primary_click_behavior (g : Graph) (r c : Nat) :
    (g.start = none → primaryClick g r c =
      (if g.end_ = some (r, c) then g else Graph.set_start g r c)) ∧
    (g.start ≠ none → primaryClick g r c =
      (if g.end_ ≠ some (r, c) ∧ g.start ≠ some (r, c) ∧ g.paths = false
       then { g with grid := updateCell g.grid r c Cell.set_barrier } else g)) := by
  constructor
  · intro hs
    unfold primaryClick
    by_cases he : g.end_ = some (r, c)
    · have h1 : ¬(g.start = none ∧ g.end_ ≠ some (r, c)) := fun hcon => hcon.2 he
      have h2 : ¬(g.end_ ≠ some (r, c) ∧ g.start ≠ some (r, c) ∧ g.paths = false) :=
        fun hcon => hcon.1 he
      rw [if_pos he, if_neg h1, if_neg h2]
    · rw [if_neg he, if_pos ⟨hs, he⟩]
  · intro hs
    unfold primaryClick
    have h1 : ¬(g.start = none ∧ g.end_ ≠ some (r, c)) := fun hcon => hs hcon.1
    rw [if_neg h1]

/-- Witness for the amended C3: on the fresh 1-cell grid a primary click
designates the start. -/
theorem primary_click_behavior_witness :
    primaryClick (Graph.init 1 8) 0 0 =
      (if (Graph.init 1 8).end_ = some (0, 0) then Graph.init 1 8
       else Graph.set_start (Graph.init 1 8) 0 0) :=
  (primary_click_behavior (Graph.init 1 8) 0 0).1 rfl

/-- Concrete graph whose only cell is the designated START. -/
def gC4 : Graph :=
  { rows := 1, grid := [[⟨0, 0, State.START, none, none⟩]],
    start := some (0, 0), end_ := none, paths := false }

/-- C4 counterexample: with no end designated and a non-BARRIER cell, a
secondary click on the START cell does NOT make it the end (the handler
additionally requires the clicked node to differ from the start), refuting
the claim's stated iff condition. -/
theorem secondary_on_start_cell_is_noop :
    gC4.end_ = none ∧ (Cell.mk 0 0 State.START none none).state ≠ State.BARRIER ∧
    resultGraph (handleEvent gC4 1 rand0 Event.other
      ⟨false, true, false, (0, 0)⟩) = some gC4 ∧
    stateAt gC4.grid (0, 0) = some State.START :=
  ⟨rfl, by decide, rfl, rfl⟩

/-- C4 (amended): a secondary click makes the clicked cell the end iff no
end is designated, the cell is not in BARRIER state, AND the cell is not
the designated start; in every other case the press changes nothing. -/
theorem secondary_click_behavior (g : Graph) (r c : Nat) (node : Cell)
    (hnode : gridGet g.grid r c = some node) :
    ((g.end_ = none ∧ g.start ≠ some (r, c) ∧ node.state ≠ State.BARRIER) →
      (secondaryClick g r c node).end_ = some (r, c) ∧
      (g.paths = false →
        stateAt (secondaryClick g r c node).grid (r, c) = some State.END)) ∧
    (¬(g.end_ = none ∧ g.start ≠ some (r, c) ∧ node.state ≠ State.BARRIER) →
      secondaryClick g r c node = g) := by
  constructor
  · intro hcond
    unfold secondaryClick
    rw [if_pos hcond]
    constructor
    · show (if (Graph.set_end g r c).paths = true
        then Graph.mark_path (Graph.set_end g r c) false
        else Graph.set_end g r c).end_ = some (r, c)
      split
      · rw [(mark_path_fields _ _).2.1]
        rfl
      · rfl
    · intro hpf
      have hps : ¬((Graph.set_end g r c).paths = true) := by
        show ¬(g.paths = true)
        rw [hpf]
        decide
      show stateAt (if (Graph.set_end g r c).paths = true
        then Graph.mark_path (Graph.set_end g r c) false
        else Graph.set_end g r c).grid (r, c) = some State.END
      rw [if_neg hps]
      show stateAt (updateCell g.grid r c Cell.set_end) (r, c) = some State.END
      rw [stateAt_updateCell_at, hnode]
      rfl
  · intro hcond
    unfold secondaryClick
    rw [if_neg hcond]

/-- Witness for the amended C4: a secondary click on the fresh 1-cell grid
designates the end. -/
theorem secondary_click_behavior_witness :
    (secondaryClick (Graph.init 1 8) 0 0 (Cell.mk 0 0 State.EMPTY none none)).end_
      = some (0, 0) :=
  ((secondary_click_behavior (Graph.init 1 8) 0 0 (Cell.mk 0 0 State.EMPTY none none)
    rfl).1 ⟨rfl, by decide, by decide⟩).1

/-- The handler's END-deletion-while-paths sequence (gui.py lines 135-142):
reset the cell, re-mark the stored path via `mark_path(True)`, set the
former end cell CLOSED, clear the end reference. -/
def endDeleteResult (g : Graph) (r c : Nat) : Graph :=
  let g1 : Graph := { g with grid := updateCell g.grid r c Cell.reset }
  let g2 := Graph.mark_path g1 true
  { g2 with grid := updateCell g2.grid r c Cell.set_closed, end_ := none }

/-- C10: while a path exists, a tertiary click on the current END cell runs
exactly the reset / `mark_path(True)` / `set_closed` / clear-end sequence,
and the END cell is the only cell a tertiary click can change while `paths`
is true. -/
theorem tertiary_deletes_end_while_paths (g : Graph) (r c : Nat) (node : Cell)
    (hpaths : g.paths = true) (hend : g.end_ = some (r, c))
    (hsne : g.start ≠ some (r, c)) (hnode : node.state = State.END) :
    tertiaryClick g r c node = endDeleteResult g r c ∧
    (∀ other : Cell, other.state ≠ State.END → tertiaryClick g r c other = g) := by
  constructor
  · unfold tertiaryClick
    rw [if_pos (Or.inl hnode)]
    show (if g.start = some (r, c) then
        { g with grid := updateCell g.grid r c Cell.reset, start := none }
      else if g.end_ = some (r, c) then
        if g.paths = true then
          { Graph.mark_path { g with grid := updateCell g.grid r c Cell.reset } true with
            grid := updateCell
              (Graph.mark_path { g with grid := updateCell g.grid r c Cell.reset } true).grid
              r c Cell.set_closed,
            end_ := none }
        else { g with grid := updateCell g.grid r c Cell.reset, end_ := none }
      else { g with grid := updateCell g.grid r c Cell.reset }) = endDeleteResult g r c
    rw [if_neg hsne, if_pos hend, if_pos hpaths]
    rfl
  · intro other hne
    unfold tertiaryClick
    rw [if_neg]
    intro hcon
    rcases hcon with h1 | h2 | h3
    · exact hne h1
    · rw [hpaths] at h2
      exact absurd h2.1 (by decide)
    · rw [hpaths] at h3
      exact absurd h3.1 (by decide)

/-- Concrete graph after a successful search: START at (0,0), END at (0,1)
with predecessor (0,0), paths set. -/
def gC10 : Graph :=
  { rows := 2,
    grid := [[⟨0, 0, State.START, none, some 0⟩, ⟨0, 1, State.END, some (0, 0), some 1⟩],
             [⟨1, 0, State.CLOSED, some (0, 0), some 1⟩, ⟨1, 1, State.EMPTY, none, none⟩]],
    start := some (0, 0), end_ := some (0, 1), paths := true }

/-- Witness for C10 on `gC10`. -/
theorem tertiary_deletes_end_while_paths_witness :
    tertiaryClick gC10 0 1 (Cell.mk 0 1 State.END (some (0, 0)) (some 1))
      = endDeleteResult gC10 0 1 :=
  (tertiary_deletes_end_while_paths gC10 0 1
    (Cell.mk 0 1 State.END (some (0, 0)) (some 1)) rfl rfl (by decide) rfl).1

end PathFinder
